import Mathlib

/-!
Shallow embedding of the image-index service (Rust sources under `src/`):
the tag normalizer (`src/tagging.rs`), the storage helpers (`src/storage.rs`),
the LM Studio client contract (`src/services/lm_studio.rs`), the photo store
queries (`src/models/photo.rs`) and the two orchestration pipelines
(`src/routes/images.rs`).

Rust `String` values are embedded as `List Char`; the handful of `str`
operations the code uses (`trim`, `split`, `replace`, `to_lowercase`) are
given explicit list-level definitions matching Rust semantics.  The SQL
queries of `photo.rs` are embedded as pure functions over an explicit table
of rows; distances computed by pgvector's `<=>` operator are abstracted as
rational numbers attached to each row.  External collaborators (the LM
Studio service, the file system, the database connection) are parameters of
each pipeline, so that every outcome of every fallible call is quantified
over.
-/

deriving instance DecidableEq for Except

namespace ImageIndex

/-- Rust `String` / `&str`, embedded as its list of characters. -/
abbrev RStr := List Char

/-- The characters with the Unicode `White_Space` property, which is what
Rust's `char::is_whitespace` (used by `str::trim`) tests. -/
def rustWhitespaceChars : List Char :=
  [' ', '\t', '\n', '\x0b', '\x0c', '\r', '\u0085', ' ', ' ',
   ' ', ' ', ' ', ' ', ' ', ' ', ' ',
   ' ', ' ', ' ', ' ', ' ', ' ', ' ',
   ' ', '　']

/-- Rust `char::is_whitespace`. -/
def rustIsWhitespace (c : Char) : Bool :=
  rustWhitespaceChars.contains c

/-- Rust `str::trim`: remove leading and trailing whitespace. -/
def rustTrim (s : RStr) : RStr :=
  ((s.dropWhile rustIsWhitespace).reverse.dropWhile rustIsWhitespace).reverse

/-- Rust `str::split(sep)` semantics on a single separator character:
splitting the empty string yields one empty piece, and every separator
occurrence starts a new piece. -/
def splitChar (sep : Char) : RStr → List RStr
  | [] => [[]]
  | c :: rest =>
    match splitChar sep rest with
    | [] => [[]]
    | piece :: pieces =>
      if c = sep then [] :: piece :: pieces else (c :: piece) :: pieces

/-- Rust `str::to_lowercase`, restricted to the ASCII extensions the code
compares against (`png`, `jpg`, ...). -/
def rustToLower (s : RStr) : RStr :=
  s.map Char.toLower

/-! ### The `base64` crate's `general_purpose::STANDARD` engine

`STANDARD` uses the RFC 4648 alphabet, requires canonical padding and
rejects non-zero trailing bits. -/

/-- Value of a character in the standard base64 alphabet, `none` for any
other character (including whitespace and the pad `'='`). -/
def b64Val (c : Char) : Option Nat :=
  let n := c.toNat
  if 65 ≤ n ∧ n ≤ 90 then some (n - 65)
  else if 97 ≤ n ∧ n ≤ 122 then some (n - 97 + 26)
  else if 48 ≤ n ∧ n ≤ 57 then some (n - 48 + 52)
  else if n = 43 then some 62
  else if n = 47 then some 63
  else none

/-- Character for a 6-bit value in the standard base64 alphabet. -/
def b64Chr (n : Nat) : Char :=
  if n < 26 then Char.ofNat (65 + n)
  else if n < 52 then Char.ofNat (97 + (n - 26))
  else if n < 62 then Char.ofNat (48 + (n - 52))
  else if n = 62 then '+'
  else '/'

/-- Strict base64 decoding as performed by `STANDARD.decode`: the input is
consumed in blocks of four characters; the last block may carry one or two
pad characters, whose unused bits must be zero (canonical encoding); any
other shape is an error.  Bytes are `Nat` values below 256. -/
def decodeB64 : List Char → Except Unit (List Nat)
  | [] => .ok []
  | c1 :: c2 :: c3 :: c4 :: rest =>
    match b64Val c1, b64Val c2 with
    | some v1, some v2 =>
      if c3 = '=' then
        if c4 = '=' ∧ rest = [] ∧ v2 % 16 = 0 then .ok [v1 * 4 + v2 / 16]
        else .error ()
      else
        match b64Val c3 with
        | some v3 =>
          if c4 = '=' then
            if rest = [] ∧ v3 % 4 = 0 then
              .ok [v1 * 4 + v2 / 16, v2 % 16 * 16 + v3 / 4]
            else .error ()
          else
            match b64Val c4 with
            | some v4 =>
              match decodeB64 rest with
              | .ok tail =>
                .ok ([v1 * 4 + v2 / 16, v2 % 16 * 16 + v3 / 4,
                      v3 % 4 * 64 + v4] ++ tail)
              | .error e => .error e
            | none => .error ()
        | none => .error ()
    | _, _ => .error ()
  | _ => .error ()

/-- Canonical base64 encoding as performed by `STANDARD.encode`. -/
def encodeB64 : List Nat → List Char
  | [] => []
  | [b1] => [b64Chr (b1 / 4), b64Chr (b1 % 4 * 16), '=', '=']
  | [b1, b2] =>
    [b64Chr (b1 / 4), b64Chr (b1 % 4 * 16 + b2 / 16), b64Chr (b2 % 16 * 4), '=']
  | b1 :: b2 :: b3 :: rest =>
    b64Chr (b1 / 4) :: b64Chr (b1 % 4 * 16 + b2 / 16) ::
      b64Chr (b2 % 16 * 4 + b3 / 64) :: b64Chr (b3 % 64) :: encodeB64 rest

/-! ### `src/errors.rs` -/

/-- `AppError`: an HTTP status together with a message. -/
structure AppError where
  status : Nat
  message : RStr
deriving DecidableEq, Repr

/-- `AppError::bad_request`. -/
def AppError.bad_request (message : RStr) : AppError :=
  ⟨400, message⟩

/-- `AppError::internal`.  The `From` conversions for `anyhow::Error` and
`sqlx::Error` both produce `internal("internal server error")`. -/
def AppError.internal (message : RStr) : AppError :=
  ⟨500, message⟩

/-- The error every `anyhow`/`sqlx` failure surfaces as. -/
def internalServerError : AppError :=
  AppError.internal "internal server error".data

/-! ### `src/storage.rs` -/

/-- Components of a path in the sense of Rust's `std::path`: split on `'/'`,
with empty components and `"."` skipped. -/
def pathComponents (s : RStr) : List RStr :=
  (splitChar '/' s).filter (fun c => c ≠ [] ∧ c ≠ ['.'])

/-- Rust `Path::file_name`: the last normal component, `none` when there is
no component or the path ends in `".."`. -/
def pathFileName (s : RStr) : Option RStr :=
  match (pathComponents s).getLast? with
  | none => none
  | some c => if c = ['.', '.'] then none else some c

/-- `sanitize_file_name`: trim, take the basename (rejecting inputs with no
usable basename), and replace spaces with underscores. -/
def sanitize_file_name (file_name : RStr) : Except AppError RStr :=
  let trimmed := rustTrim file_name
  match pathFileName trimmed with
  | none => .error (AppError.bad_request "file_name must not contain path separators".data)
  | some candidate =>
    if candidate = [] then .error (AppError.bad_request "file_name cannot be empty".data)
    else .ok (candidate.map (fun c => if c = ' ' then '_' else c))

/-- `decode_image`: strip every `'\n'` and `'\r'` (Rust
`encoded.replace(['\n','\r'], "")`), then base64-decode strictly. -/
def decode_image (encoded : RStr) : Except AppError (List Nat) :=
  match decodeB64 (encoded.filter (fun c => ¬(c = '\n' ∨ c = '\r'))) with
  | .ok bytes => .ok bytes
  | .error _ => .error (AppError.bad_request "image_base64 must be valid base64".data)

/-- Rust `Path::extension` on a file name: the part after the last `'.'`,
`none` when there is no dot or the name is a dotfile with a single dot. -/
def fileExtension (name : RStr) : Option RStr :=
  match splitChar '.' name with
  | [] => none
  | [_] => none
  | [first, ext] => if first = [] then none else some ext
  | parts => parts.getLast?

/-- `infer_mime_type`: fixed extension table, case-insensitive. -/
def infer_mime_type (file_name : RStr) : Option RStr :=
  match (fileExtension file_name).map rustToLower with
  | some ext =>
    if ext = "png".data then some "image/png".data
    else if ext = "jpg".data ∨ ext = "jpeg".data then some "image/jpeg".data
    else if ext = "gif".data then some "image/gif".data
    else if ext = "bmp".data then some "image/bmp".data
    else none
  | none => none

/-! ### `src/tagging.rs` -/

/-- `parse_tags`: split on comma, trim each piece, drop empty pieces. -/
def parse_tags (input : RStr) : List RStr :=
  ((splitChar ',' input).map rustTrim).filter (fun tag => tag ≠ [])

/-! ### `src/models/photo.rs`

The SQL queries are embedded as pure functions over an explicit list of
rows.  `created_at` timestamps are integers; the distance
`tag_embedding <=> $1` computed by pgvector for a given query vector is
abstracted as a rational attached to the row (`none` when `tag_embedding IS
NULL`). -/

/-- The `Photo` record returned by every query (`photo_id, file_name,
file_path, tags, created_at`). -/
structure Photo where
  photo_id : Int
  file_name : RStr
  file_path : RStr
  tags : List RStr
  created_at : Int
deriving DecidableEq, Repr

/-- The order `ORDER BY created_at DESC` sorts by: newest first. -/
def newestFirst (a b : Photo) : Prop :=
  b.created_at ≤ a.created_at

instance : DecidableRel newestFirst :=
  fun a b => inferInstanceAs (Decidable (b.created_at ≤ a.created_at))

instance : IsTotal Photo newestFirst :=
  ⟨fun a b => le_total b.created_at a.created_at⟩

instance : IsTrans Photo newestFirst :=
  ⟨fun _ _ _ h h' => le_trans h' h⟩

/-- `Photo::list_all`: every row, `ORDER BY created_at DESC`. -/
def list_all (table : List Photo) : List Photo :=
  table.insertionSort newestFirst

/-- The SQL array-overlap operator `tags && $1`. -/
def tagsOverlap (ptags search_tags : List RStr) : Bool :=
  ptags.any (fun t => search_tags.contains t)

/-- `Photo::search_by_tags`: an empty filter list short-circuits to
`list_all`; otherwise rows whose tag array overlaps the filter,
`ORDER BY created_at DESC`. -/
def search_by_tags (table : List Photo) (search_tags : List RStr) : List Photo :=
  if search_tags = [] then list_all table
  else (table.filter (fun p => tagsOverlap p.tags search_tags)).insertionSort newestFirst

/-- Ascending distance, the order `ORDER BY tag_embedding <=> $1` /
`ORDER BY dist` sorts candidate rows by. -/
def distLe (a b : Photo × ℚ) : Prop :=
  a.2 ≤ b.2

instance : DecidableRel distLe :=
  fun a b => inferInstanceAs (Decidable (a.2 ≤ b.2))

instance : IsTotal (Photo × ℚ) distLe :=
  ⟨fun a b => le_total a.2 b.2⟩

instance : IsTrans (Photo × ℚ) distLe :=
  ⟨fun _ _ _ => le_trans⟩

/-- SQL `LEAST` on two exact rationals.  (Kernel-computable stand-in for
`min`; see `leastQ_eq_min`.) -/
def leastQ (a b : ℚ) : ℚ :=
  if a ≤ b then a else b

/-- Exact rational addition, SQL `+`.  (Kernel-computable stand-in for the
irreducible `Rat.add`; see `ratAdd_eq_add`.) -/
def ratAdd (a b : ℚ) : ℚ :=
  mkRat (a.num * b.den + b.num * a.den) (a.den * b.den)

/-- SQL aggregate `MIN` over a column: `NULL` (`none`) on the empty set. -/
def sqlMin : List ℚ → Option ℚ
  | [] => none
  | d :: rest =>
    match sqlMin rest with
    | none => some d
    | some m => some (leastQ d m)

/-- The tuning constant `delta = 0.05` of the adaptive threshold. -/
def delta : ℚ := mkRat 5 100

/-- The tuning constant `max_cap = 0.60` of the adaptive threshold. -/
def max_cap : ℚ := mkRat 60 100

/-- The adaptive branch of `Photo::search_by_embedding`: over the `ranked`
CTE (rows sorted ascending by distance, capped at the limit), keep the rows
with `dist <= LEAST(MIN(dist) + delta, max_cap)`.  When `ranked` is empty
the SQL `MIN` is `NULL` and the comparison keeps nothing. -/
def adaptive_filter (ranked : List (Photo × ℚ)) : List (Photo × ℚ) :=
  match sqlMin (ranked.map Prod.snd) with
  | none => []
  | some m => ranked.filter (fun r => decide (r.2 ≤ leastQ (ratAdd m delta) max_cap))

/-- `Photo::search_by_embedding` over the table of rows paired with their
distance to the query vector (`none` when `tag_embedding IS NULL`, which the
`WHERE tag_embedding IS NOT NULL` clause drops).  With an explicit
`max_distance` the query filters by the threshold, orders by distance and
applies `LIMIT`; without one it builds the `ranked` CTE (order, `LIMIT`) and
applies the adaptive filter. -/
def search_by_embedding (table : List (Photo × Option ℚ)) (limit : Nat)
    (max_distance : Option ℚ) : List (Photo × ℚ) :=
  let withDist := table.filterMap (fun pd => pd.2.map (fun d => (pd.1, d)))
  match max_distance with
  | some threshold =>
    (((withDist.filter (fun r => decide (r.2 ≤ threshold))).insertionSort distLe).take limit)
  | none =>
    adaptive_filter ((withDist.insertionSort distLe).take limit)

/-! ### `src/services/lm_studio.rs` -/

/-- Parsed body of a successful `/embeddings` response
(`EmbeddingsResponse { data: Vec<EmbeddingItem> }`); each item carries one
vector, embedded with rational components. -/
structure EmbeddingsResponse where
  data : List (List ℚ)
deriving DecidableEq, Repr

/-- Outcome of one remote HTTP exchange: transport failure, non-success
status (`error_for_status`), unparseable JSON body, or a parsed payload. -/
inductive RemoteOutcome (α : Type) where
  | transportError : RemoteOutcome α
  | badStatus : RemoteOutcome α
  | badJson : RemoteOutcome α
  | ok : α → RemoteOutcome α
deriving DecidableEq, Repr

/-- `LmStudioClient::embed_texts`: any remote failure is an error; on a
parsed payload the vectors are collected in order and the count must equal
the number of inputs, else the call fails (`anyhow::bail!`). -/
def embed_texts (inputs : List RStr) (remote : RemoteOutcome EmbeddingsResponse) :
    Except Unit (List (List ℚ)) :=
  match remote with
  | .transportError => .error ()
  | .badStatus => .error ()
  | .badJson => .error ()
  | .ok payload =>
    let result := payload.data
    if result.length ≠ inputs.length then .error () else .ok result

/-- Outcome of an awaited service call wrapped in `tokio::time::timeout`. -/
inductive SvcResult (α : Type) where
  | ok : α → SvcResult α
  | failed : SvcResult α
  | timedOut : SvcResult α
deriving DecidableEq, Repr

/-! ### `src/routes/images.rs` — upload pipeline -/

/-- `POST /api/images` request body. -/
structure UploadRequest where
  file_name : RStr
  image_base64 : RStr
  mime_type : Option RStr
deriving DecidableEq, Repr

/-- Observable external state the upload pipeline mutates: the saved image
files (path, bytes) and the database rows (photo together with the optional
`tag_embedding` column). -/
structure World where
  files : List (RStr × List Nat)
  rows : List (Photo × Option (List ℚ))
deriving DecidableEq, Repr

/-- Outcomes of the external collaborators during one upload run.
`chatResponse` is the chat-completion text LM Studio returns for the
`tag_image` call, as a function of the base64 payload and mime type sent;
`nextId`/`now` are the id and timestamp the database assigns on insert. -/
structure UploadEnv where
  chatResponse : RStr → RStr → Except Unit RStr
  saveOk : Bool
  embed : SvcResult (List (List ℚ))
  insertOk : Bool
  removeOk : Bool
  nextId : Int
  now : Int

/-- `LmStudioClient::tag_image`: the chat completion's text is parsed with
`parse_tags`. -/
def tag_image (env : UploadEnv) (base64_image mime_type : RStr) :
    Except Unit (List RStr) :=
  (env.chatResponse base64_image mime_type).map parse_tags

/-- Mime-type resolution in `upload_image`: explicit override, else
inferred from the sanitized name. -/
def resolve_mime (mime_type : Option RStr) (sanitized : RStr) : Option RStr :=
  match mime_type with
  | some m => some m
  | none => infer_mime_type sanitized

/-- The images directory of `storage.rs`. -/
def imagesDir : RStr := "images".data

/-- `fs::write` through `save_image`: the file at `path` now holds `bytes`. -/
def write_file (files : List (RStr × List Nat)) (path : RStr) (bytes : List Nat) :
    List (RStr × List Nat) :=
  files.filter (fun f => f.1 ≠ path) ++ [(path, bytes)]

/-- `remove_image`: empty paths are ignored; otherwise the file is removed
(a `NotFound` failure leaves the same state and is swallowed). -/
def remove_image (files : List (RStr × List Nat)) (path : RStr) :
    List (RStr × List Nat) :=
  if path = [] then files else files.filter (fun f => f.1 ≠ path)

/-- Steps of `upload_image` after the name is sanitized and the payload
decoded: resolve the mime type, canonically re-encode the bytes, tag
(mandatory), save, embed (non-fatal, 5 s timeout), insert, and compensate by
deleting the saved file when the insert fails.  Returns the handler result,
the final external state and the trace of tagging calls issued (canonical
base64 payload, mime type). -/
def upload_tagged (env : UploadEnv) (mime_type : Option RStr) (sanitized : RStr)
    (bytes : List Nat) (w : World) :
    Except AppError Photo × World × List (RStr × RStr) :=
  match resolve_mime mime_type sanitized with
  | none => (.error (AppError.bad_request "unknown file extension; provide mime_type".data), w, [])
  | some mime =>
    let canonical := encodeB64 bytes
    match tag_image env canonical mime with
    | .error _ => (.error internalServerError, w, [(canonical, mime)])
    | .ok tags =>
      if tags = [] then
        (.error (AppError.bad_request "tagging service returned no tags".data), w, [(canonical, mime)])
      else if env.saveOk = false then
        (.error internalServerError, w, [(canonical, mime)])
      else
        let path := imagesDir ++ '/' :: sanitized
        let files1 := write_file w.files path bytes
        let tag_embedding : Option (List ℚ) :=
          match env.embed with
          | .ok embs => embs.head?
          | .failed => none
          | .timedOut => none
        if env.insertOk then
          let photo : Photo := ⟨env.nextId, sanitized, path, tags, env.now⟩
          (.ok photo, ⟨files1, w.rows ++ [(photo, tag_embedding)]⟩, [(canonical, mime)])
        else
          let files2 := if env.removeOk then remove_image files1 path else files1
          (.error internalServerError, ⟨files2, w.rows⟩, [(canonical, mime)])

/-- The `upload_image` handler: reject empty file name or payload, sanitize
the name, decode the payload, then continue with `upload_tagged`. -/
def upload_image (env : UploadEnv) (req : UploadRequest) (w : World) :
    Except AppError Photo × World × List (RStr × RStr) :=
  if rustTrim req.file_name = [] then
    (.error (AppError.bad_request "file_name cannot be empty".data), w, [])
  else if rustTrim req.image_base64 = [] then
    (.error (AppError.bad_request "image_base64 cannot be empty".data), w, [])
  else
    match sanitize_file_name req.file_name with
    | .error e => (.error e, w, [])
    | .ok sanitized =>
      match decode_image req.image_base64 with
      | .error e => (.error e, w, [])
      | .ok bytes => upload_tagged env req.mime_type sanitized bytes w

/-! ### `src/routes/images.rs` — search endpoints -/

/-- `POST /api/images/semantic-search` request body. -/
structure VectorSearchRequest where
  query : RStr
  limit : Option Int
  max_distance : Option ℚ
deriving DecidableEq, Repr

/-- `POST /api/images/semantic-search` response body (`tags` is `None`
unless the fallback path ran and its tagging call succeeded). -/
structure VectorSearchResponse where
  query : RStr
  photos : List Photo
  tags : Option (List RStr)
deriving DecidableEq, Repr

/-- Outcomes of the external collaborators during one semantic-search run:
the embedding call (5 s timeout), the photo table with the pgvector distance
of each row to a given query vector, the fallback tagging call (2 s
timeout), and the success of the two store queries. -/
structure SearchEnv where
  embed : SvcResult (List (List ℚ))
  photos : List Photo
  dist : List ℚ → Photo → Option ℚ
  vectorStoreOk : Bool
  queryTags : SvcResult (List RStr)
  tagStoreOk : Bool

/-- Limit resolution in `semantic_search_images`: default 24, clamped into
`[1, 200]`. -/
def clamp_limit (limit : Option Int) : Int :=
  let requested := limit.getD 24
  if requested < 1 then 1 else if requested > 200 then 200 else requested

/-- The tag-fallback tail of `semantic_search_images`: on tagging success
the tags become the response's `tags` field and, unless empty, are used for
a tag-overlap query; on tagging failure or timeout `tags` is `None` and no
photos are returned. -/
def semantic_fallback (env : SearchEnv) (query : RStr) :
    Except AppError VectorSearchResponse :=
  let fallback_tags : Option (List RStr) :=
    match env.queryTags with
    | .ok tags => some tags
    | .failed => none
    | .timedOut => none
  match fallback_tags with
  | some tags =>
    if tags = [] then .ok ⟨query, [], some tags⟩
    else if env.tagStoreOk then .ok ⟨query, search_by_tags env.photos tags, some tags⟩
    else .error internalServerError
  | none => .ok ⟨query, [], none⟩

/-- The `semantic_search_images` handler: reject empty queries; try the
embedding call; with a first vector run the vector search with the clamped
limit and the optional explicit threshold, answering immediately on a
non-empty result (with `tags` absent); otherwise fall back to tags. -/
def semantic_search (env : SearchEnv) (req : VectorSearchRequest) :
    Except AppError VectorSearchResponse :=
  if rustTrim req.query = [] then
    .error (AppError.bad_request "query cannot be empty".data)
  else
    let embeddings : List (List ℚ) :=
      match env.embed with
      | .ok v => v
      | .failed => []
      | .timedOut => []
    match embeddings.head? with
    | some first =>
      if env.vectorStoreOk then
        let pairs :=
          search_by_embedding (env.photos.map (fun p => (p, env.dist first p)))
            (clamp_limit req.limit).toNat req.max_distance
        if pairs = [] then semantic_fallback env req.query
        else .ok ⟨req.query, pairs.map Prod.fst, none⟩
      else .error internalServerError
    | none => semantic_fallback env req.query

/-- The `list_images` handler (`GET /api/images`): with no `tags` parameter
or one that parses to no tags, list everything; otherwise search by tag
overlap. -/
def list_images (photos : List Photo) (params : Option RStr) : List Photo :=
  match params with
  | some tags_param =>
    let tags := parse_tags tags_param
    if tags = [] then list_all photos
    else search_by_tags photos tags
  | none => list_all photos

/-- A concrete photo record used in example instances of the theorems. -/
def examplePhoto (i : Int) : Photo :=
  ⟨i, "p.png".data, "images/p.png".data, ["x".data], 0⟩

/-- The candidate set of the spec's adaptive-ranker example: distances
`[0.10, 0.12, 0.40, 0.70]`, already sorted ascending. -/
def exampleRanked : List (Photo × ℚ) :=
  [(examplePhoto 1, mkRat 10 100), (examplePhoto 2, mkRat 12 100),
   (examplePhoto 3, mkRat 40 100), (examplePhoto 4, mkRat 70 100)]

/-- An empty external state. -/
def emptyWorld : World :=
  ⟨[], []⟩

/-- An upload environment whose collaborators all succeed: tagging answers
`"cat, dog"`, saving and inserting succeed, embedding fails (non-fatal). -/
def exampleUploadEnv : UploadEnv :=
  ⟨fun _ _ => .ok "cat, dog".data, true, .failed, true, true, 1, 0⟩

/-- Like `exampleUploadEnv` but the database insert fails. -/
def exampleUploadEnvNoInsert : UploadEnv :=
  ⟨fun _ _ => .ok "cat, dog".data, true, .failed, false, true, 1, 0⟩

/-- A search environment whose embedding call succeeds with one vector and
whose table holds photo 1 at distance `0.10` from the query vector and
photo 2 without an embedding. -/
def exampleSearchEnv : SearchEnv :=
  ⟨.ok [[1]],
   [examplePhoto 1, examplePhoto 2],
   fun _ p => if p.photo_id = 1 then some (mkRat 10 100) else none,
   true,
   .ok ["cat".data],
   true⟩

/-- A search environment whose embedding call fails, whose fallback tagging
returns no tags, and whose tag store would fail if it were queried. -/
def exampleSearchEnvFallback : SearchEnv :=
  ⟨.failed, [examplePhoto 1], fun _ _ => none, true, .ok [], false⟩

/-! ### Helper lemmas -/

theorem whitespace_chars_not_base64 :
    ∀ c ∈ rustWhitespaceChars, b64Val c = none ∧ c ≠ '=' := by
  decide

theorem rustIsWhitespace_iff {c : Char} :
    rustIsWhitespace c = true ↔ c ∈ rustWhitespaceChars := by
  simp [rustIsWhitespace]

theorem rustTrim_eq_nil_iff {s : RStr} :
    rustTrim s = [] ↔ ∀ c ∈ s, rustIsWhitespace c = true := by
  unfold rustTrim
  rw [List.reverse_eq_nil_iff, List.dropWhile_eq_nil_iff]
  constructor
  · intro h c hc
    rw [← List.takeWhile_append_dropWhile rustIsWhitespace s] at hc
    rcases List.mem_append.mp hc with h1 | h2
    · exact List.mem_takeWhile_imp h1
    · exact h c (List.mem_reverse.mpr h2)
  · intro h c hc
    exact h c ((List.dropWhile_sublist rustIsWhitespace).subset (List.mem_reverse.mp hc))

theorem decodeB64_ok_inv {l : List Char} {b : List Nat} (h : decodeB64 l = .ok b) :
    (∀ c ∈ l, (b64Val c).isSome ∨ c = '=') ∧ (b = [] → l = []) := by
  induction l using decodeB64.induct generalizing b with
  | case1 =>
    exact ⟨fun c hc => absurd hc (List.not_mem_nil c), fun _ => rfl⟩
  | case2 c1 c2 c4 rest v1 v2 hv2 hv1 hcond =>
    obtain ⟨rfl, rfl, hv⟩ := hcond
    rw [decodeB64] at h
    simp only [hv1, hv2, hv, if_true, and_true, reduceIte] at h
    refine ⟨?_, ?_⟩
    · intro c hc
      simp only [List.mem_cons, List.not_mem_nil, or_false] at hc
      rcases hc with rfl | rfl | rfl | rfl
      · exact Or.inl (by simp [hv1])
      · exact Or.inl (by simp [hv2])
      · exact Or.inr rfl
      · exact Or.inr rfl
    · intro hb; rw [hb] at h; cases h
  | case3 c1 c2 c4 rest v1 v2 hv2 hv1 hcond =>
    rw [decodeB64] at h
    simp only [hv1, hv2, hcond, reduceIte, if_false] at h
    cases h
  | case4 c1 c2 c3 rest v1 v2 hv2 hv1 h3 v3 hv3 hcond =>
    obtain ⟨rfl, hv⟩ := hcond
    rw [decodeB64] at h
    simp only [hv1, hv2, hv3, h3, hv, if_true, and_true, true_and, if_false, reduceIte] at h
    refine ⟨?_, ?_⟩
    · intro c hc
      simp only [List.mem_cons, List.not_mem_nil, or_false] at hc
      rcases hc with rfl | rfl | rfl | rfl
      · exact Or.inl (by simp [hv1])
      · exact Or.inl (by simp [hv2])
      · exact Or.inl (by simp [hv3])
      · exact Or.inr rfl
    · intro hb; rw [hb] at h; cases h
  | case5 c1 c2 c3 rest v1 v2 hv2 hv1 h3 v3 hv3 hcond =>
    rw [decodeB64] at h
    simp only [hv1, hv2, hv3, h3, hcond, reduceIte, if_false] at h
    cases h
  | case6 c1 c2 c3 c4 rest v1 v2 hv2 hv1 h3 v3 hv3 h4 v4 hv4 tail htail ih =>
    rw [decodeB64] at h
    simp only [hv1, hv2, hv3, hv4, h3, h4, htail, reduceIte, if_false] at h
    obtain ⟨hchars, _⟩ := ih htail
    refine ⟨?_, ?_⟩
    · intro c hc
      simp only [List.mem_cons] at hc
      rcases hc with rfl | rfl | rfl | rfl | hc
      · exact Or.inl (by simp [hv1])
      · exact Or.inl (by simp [hv2])
      · exact Or.inl (by simp [hv3])
      · exact Or.inl (by simp [hv4])
      · exact hchars c hc
    · intro hb; rw [hb] at h; cases h
  | case7 c1 c2 c3 c4 rest v1 v2 hv2 hv1 h3 v3 hv3 h4 v4 hv4 e herr ih =>
    rw [decodeB64] at h
    simp only [hv1, hv2, hv3, hv4, h3, h4, herr, reduceIte, if_false] at h
    cases h
  | case8 c1 c2 c3 c4 rest v1 v2 hv2 hv1 h3 v3 hv3 h4 hv4 =>
    rw [decodeB64] at h
    simp only [hv1, hv2, hv3, hv4, h3, h4, reduceIte, if_false] at h
    cases h
  | case9 c1 c2 c3 c4 rest v1 v2 hv2 hv1 h3 hv3 =>
    rw [decodeB64] at h
    simp only [hv1, hv2, hv3, h3, reduceIte, if_false] at h
    cases h
  | case10 c1 c2 c3 c4 rest hfail =>
    rw [decodeB64] at h
    cases hv1 : b64Val c1 with
    | none => rw [hv1] at h; cases h
    | some v1 =>
      cases hv2 : b64Val c2 with
      | none => rw [hv1, hv2] at h; cases h
      | some v2 => exact absurd trivial (fun _ => hfail v1 v2 hv1 hv2)
  | case11 t hne hnotlong =>
    rcases t with _ | ⟨a, _ | ⟨a2, _ | ⟨a3, _ | ⟨a4, rest⟩⟩⟩⟩
    · exact absurd rfl hne
    · simp [decodeB64] at h
    · simp [decodeB64] at h
    · simp [decodeB64] at h
    · exact absurd rfl (fun heq => hnotlong a a2 a3 a4 rest heq)

theorem decode_image_trim {s : RStr} {b : List Nat} (h : decode_image s = .ok b) :
    rustTrim s = [] ↔ b = [] := by
  unfold decode_image at h
  cases hd : decodeB64 (s.filter (fun c => ¬(c = '\n' ∨ c = '\r'))) with
  | error e => rw [hd] at h; cases h
  | ok b' =>
    rw [hd] at h
    cases h
    obtain ⟨hchars, hnil⟩ := decodeB64_ok_inv hd
    constructor
    · intro ht
      have hws := rustTrim_eq_nil_iff.mp ht
      have hclean : s.filter (fun c => ¬(c = '\n' ∨ c = '\r')) = [] := by
        rw [List.eq_nil_iff_forall_not_mem]
        intro c hc
        have hcs : c ∈ s := List.mem_of_mem_filter hc
        have hcw : c ∈ rustWhitespaceChars := rustIsWhitespace_iff.mp (hws c hcs)
        obtain ⟨hb64, hpad⟩ := whitespace_chars_not_base64 c hcw
        rcases hchars c hc with hsome | rfl
        · rw [hb64] at hsome; cases hsome
        · exact hpad rfl
      rw [hclean] at hd
      cases hd
      rfl
    · intro hb
      have hclean := hnil hb
      rw [List.filter_eq_nil_iff] at hclean
      refine rustTrim_eq_nil_iff.mpr (fun c hc => ?_)
      have := hclean c hc
      simp only [decide_not, Bool.not_eq_true', decide_eq_false_iff_not, not_not] at this
      rcases this with rfl | rfl
      · decide
      · decide

theorem filterMap_lift (l : List (Photo × ℚ)) :
    (l.map (fun r => (r.1, some r.2))).filterMap
      (fun pd => pd.2.map (fun d => (pd.1, d))) = l := by
  induction l with
  | nil => rfl
  | cons a l ih => simpa [List.filterMap_cons] using ih

theorem leastQ_eq_min (a b : ℚ) : leastQ a b = min a b := by
  unfold leastQ
  by_cases h : a ≤ b
  · rw [if_pos h, min_eq_left h]
  · rw [if_neg h, min_eq_right (le_of_not_le h)]

theorem ratAdd_eq_add (a b : ℚ) : ratAdd a b = a + b :=
  (Rat.add_def' a b).symm

theorem adaptive_filter_sublist (ranked : List (Photo × ℚ)) :
    (adaptive_filter ranked).Sublist ranked := by
  unfold adaptive_filter
  cases sqlMin (ranked.map Prod.snd) with
  | none => exact List.nil_sublist _
  | some m => exact List.filter_sublist _

theorem search_by_embedding_sorted (table : List (Photo × Option ℚ)) (limit : Nat)
    (md : Option ℚ) : List.Sorted distLe (search_by_embedding table limit md) := by
  cases md with
  | some t =>
    exact List.Pairwise.sublist (List.take_sublist _ _)
      (List.sorted_insertionSort distLe _)
  | none =>
    exact List.Pairwise.sublist
      ((adaptive_filter_sublist _).trans (List.take_sublist _ _))
      (List.sorted_insertionSort distLe _)

/-! ### Claim theorems -/

/-- C1: over a candidate set sorted ascending by distance and capped at the
requested limit `K`, `search_by_embedding` in adaptive mode keeps exactly
the candidates with distance at most `min (m + delta) max_cap` where `m` is
the minimum candidate distance, and with an explicit maximum distance `T` it
keeps exactly the candidates with distance at most `T`; both preserve the
order (the kept set is a filter of the sorted candidate set), the tuning
constants are `0.05` and `0.60`, and the spec's example distances
`[0.10, 0.12, 0.40, 0.70]` keep exactly `[0.10, 0.12]`. -/
theorem adaptive_threshold_ranker_spec
    (ranked : List (Photo × ℚ)) (K : Nat) (T m : ℚ)
    (hsorted : List.Sorted distLe ranked) (hlen : ranked.length ≤ K) :
    (sqlMin (ranked.map Prod.snd) = some m →
      search_by_embedding (ranked.map (fun r => (r.1, some r.2))) K none
        = ranked.filter (fun r => decide (r.2 ≤ min (m + delta) max_cap))) ∧
    search_by_embedding (ranked.map (fun r => (r.1, some r.2))) K (some T)
      = ranked.filter (fun r => decide (r.2 ≤ T)) ∧
    delta = 5 / 100 ∧ max_cap = 60 / 100 ∧
    search_by_embedding (exampleRanked.map (fun r => (r.1, some r.2))) 24 none
      = [(examplePhoto 1, mkRat 10 100), (examplePhoto 2, mkRat 12 100)] := by
  refine ⟨?_, ?_, ?_, ?_, by decide⟩
  · intro hm
    simp only [search_by_embedding]
    rw [filterMap_lift, hsorted.insertionSort_eq, List.take_of_length_le hlen]
    unfold adaptive_filter
    rw [hm]
    simp only [ratAdd_eq_add, leastQ_eq_min]
  · simp only [search_by_embedding]
    rw [filterMap_lift, (hsorted.filter _).insertionSort_eq]
    exact List.take_of_length_le ((List.length_filter_le _ _).trans hlen)
  · rw [delta, Rat.mkRat_eq_divInt, Rat.divInt_eq_div]; norm_num
  · rw [max_cap, Rat.mkRat_eq_divInt, Rat.divInt_eq_div]; norm_num

/-- Witness for `adaptive_threshold_ranker_spec` at the spec's example. -/
theorem adaptive_threshold_ranker_spec_witness :
    List.Sorted distLe exampleRanked ∧ exampleRanked.length ≤ 24 ∧
    search_by_embedding (exampleRanked.map (fun r => (r.1, some r.2))) 24
        (some (mkRat 50 100))
      = exampleRanked.filter (fun r => decide (r.2 ≤ mkRat 50 100)) :=
  ⟨by decide, by decide,
    (adaptive_threshold_ranker_spec exampleRanked 24 (mkRat 50 100) (mkRat 10 100)
      (by decide) (by decide)).2.1⟩

/-- C9: `parse_tags` splits on comma, trims each piece, drops empty pieces,
preserves the original relative order (the result is a sublist of the
trimmed pieces), performs no case folding and no de-duplication (the
`"a, A ,a"` example keeps all three), and `parse_tags "a, b ,,c"` is
`["a", "b", "c"]`.  It is a pure function, hence deterministic. -/
theorem parse_tags_normalizer_spec :
    parse_tags "a, b ,,c".data = ["a".data, "b".data, "c".data] ∧
    parse_tags "a, A ,a".data = ["a".data, "A".data, "a".data] ∧
    (∀ input : RStr,
      parse_tags input = ((splitChar ',' input).map rustTrim).filter (fun tag => tag ≠ [])) ∧
    (∀ input : RStr, ∀ t ∈ parse_tags input, t ≠ []) ∧
    (∀ input : RStr, (parse_tags input).Sublist ((splitChar ',' input).map rustTrim)) := by
  refine ⟨by decide, by decide, fun _ => rfl, ?_, fun input => List.filter_sublist _⟩
  intro input t ht
  simpa using (List.mem_filter.mp ht).2

/-- Witness for `parse_tags_normalizer_spec` at the spec's example. -/
theorem parse_tags_normalizer_spec_witness :
    "a".data ∈ parse_tags "a, b ,,c".data ∧ "a".data ≠ ([] : RStr) :=
  ⟨by decide, parse_tags_normalizer_spec.2.2.2.1 "a, b ,,c".data "a".data (by decide)⟩

/-- C7: `embed_texts` fails whenever the remote call fails, returns a bad
status or a malformed body, or the number of returned vectors differs from
the number of inputs (never truncating silently); on success the result is
exactly the returned vector list, one vector per input in response order. -/
theorem embed_texts_strict_contract (inputs : List RStr) (payload : EmbeddingsResponse) :
    embed_texts inputs .transportError = .error () ∧
    embed_texts inputs .badStatus = .error () ∧
    embed_texts inputs .badJson = .error () ∧
    (payload.data.length ≠ inputs.length →
      embed_texts inputs (.ok payload) = .error ()) ∧
    (payload.data.length = inputs.length →
      embed_texts inputs (.ok payload) = .ok payload.data) ∧
    (∀ vs, embed_texts inputs (.ok payload) = .ok vs →
      vs.length = inputs.length ∧ vs = payload.data) := by
  refine ⟨rfl, rfl, rfl, ?_, ?_, ?_⟩
  · intro hne
    simp [embed_texts, hne]
  · intro he
    simp [embed_texts, he]
  · intro vs hvs
    unfold embed_texts at hvs
    by_cases hl : payload.data.length = inputs.length
    · simp only [hl, ne_eq, not_true_eq_false, if_false, reduceIte] at hvs
      cases hvs
      exact ⟨hl, rfl⟩
    · simp only [ne_eq, hl, not_false_eq_true, if_true, reduceIte] at hvs
      cases hvs

/-- Witness for `embed_texts_strict_contract` on a one-input call. -/
theorem embed_texts_strict_contract_witness :
    (EmbeddingsResponse.mk [[(1 : ℚ)]]).data.length = ["q".data].length ∧
    embed_texts ["q".data] (.ok (EmbeddingsResponse.mk [[(1 : ℚ)]])) = .ok [[(1 : ℚ)]] :=
  ⟨rfl, (embed_texts_strict_contract ["q".data] (EmbeddingsResponse.mk [[(1 : ℚ)]])).2.2.2.2.1 rfl⟩

/-- C8: the semantic-search result limit is 24 when omitted, and the
caller-supplied limit is clamped into `[1, 200]`: 500 becomes 200, zero or
any negative value becomes 1, and in-range values pass through. -/
theorem clamp_limit_spec :
    clamp_limit none = 24 ∧
    clamp_limit (some 500) = 200 ∧
    clamp_limit (some 0) = 1 ∧
    (∀ n : Int, n ≤ 0 → clamp_limit (some n) = 1) ∧
    (∀ n : Int, 200 < n → clamp_limit (some n) = 200) ∧
    (∀ n : Int, 1 ≤ n → n ≤ 200 → clamp_limit (some n) = n) ∧
    (∀ limit : Option Int, 1 ≤ clamp_limit limit ∧ clamp_limit limit ≤ 200) := by
  refine ⟨rfl, rfl, rfl, ?_, ?_, ?_, ?_⟩
  · intro n hn
    simp only [clamp_limit, Option.getD_some]
    split_ifs <;> omega
  · intro n hn
    simp only [clamp_limit, Option.getD_some]
    split_ifs <;> omega
  · intro n h1 h2
    simp only [clamp_limit, Option.getD_some]
    split_ifs <;> omega
  · intro limit
    cases limit with
    | none => exact ⟨by norm_num [clamp_limit], by norm_num [clamp_limit]⟩
    | some n =>
      simp only [clamp_limit, Option.getD_some]
      constructor <;> (split_ifs <;> omega)

/-- Witness for `clamp_limit_spec` at a negative requested limit. -/
theorem clamp_limit_spec_witness :
    (-7 : Int) ≤ 0 ∧ clamp_limit (some (-7)) = 1 :=
  ⟨by norm_num, clamp_limit_spec.2.2.2.1 (-7) (by norm_num)⟩

/-- C2: every upload run that fails at validation (empty file name, empty
payload, unusable file name, malformed base64, unresolvable mime type), at
the mandatory tagging step, or because tagging returned zero tags, returns
an error and leaves the external state untouched: no bytes written, no row
inserted. -/
theorem upload_atomic_before_save
    (env : UploadEnv) (req : UploadRequest) (w : World)
    (h :
      rustTrim req.file_name = [] ∨
      rustTrim req.image_base64 = [] ∨
      (∃ e, sanitize_file_name req.file_name = .error e) ∨
      (∃ e, decode_image req.image_base64 = .error e) ∨
      (∃ name bytes, sanitize_file_name req.file_name = .ok name ∧
        decode_image req.image_base64 = .ok bytes ∧
        (resolve_mime req.mime_type name = none ∨
         (∃ mime, resolve_mime req.mime_type name = some mime ∧
           (tag_image env (encodeB64 bytes) mime = .error () ∨
            tag_image env (encodeB64 bytes) mime = .ok []))))) :
    (∃ e, (upload_image env req w).1 = .error e) ∧
    (upload_image env req w).2.1 = w := by
  simp only [upload_image, upload_tagged]
  split
  · exact ⟨⟨_, rfl⟩, rfl⟩
  next h1 =>
  split
  · exact ⟨⟨_, rfl⟩, rfl⟩
  next h2 =>
  split
  · exact ⟨⟨_, rfl⟩, rfl⟩
  next name hsan =>
  split
  · exact ⟨⟨_, rfl⟩, rfl⟩
  next bytes hdec =>
  split
  · exact ⟨⟨_, rfl⟩, rfl⟩
  next mime hmime =>
  split
  · exact ⟨⟨_, rfl⟩, rfl⟩
  next tags htag =>
  split
  · exact ⟨⟨_, rfl⟩, rfl⟩
  next htags =>
  exfalso
  rcases h with h | h | ⟨e, he⟩ | ⟨e, he⟩ | ⟨name', bytes', hs', hd', hrest⟩
  · exact h1 h
  · exact h2 h
  · rw [hsan] at he; cases he
  · rw [hdec] at he; cases he
  · rw [hsan] at hs'
    injection hs' with hs'
    subst hs'
    rw [hdec] at hd'
    injection hd' with hd'
    subst hd'
    rcases hrest with hmime' | ⟨mime', hm', htag' | htag'⟩
    · rw [hmime] at hmime'; cases hmime'
    · rw [hmime] at hm'
      injection hm' with hm'
      subst hm'
      rw [htag] at htag'; cases htag'
    · rw [hmime] at hm'
      injection hm' with hm'
      subst hm'
      rw [htag] at htag'
      injection htag' with htag'
      exact htags htag'

/-- Witness for `upload_atomic_before_save`: an upload with an empty file
name against fully healthy collaborators changes nothing. -/
theorem upload_atomic_before_save_witness :
    rustTrim ([] : RStr) = [] ∧
    ((∃ e, (upload_image exampleUploadEnv ⟨[], "AQID".data, none⟩ emptyWorld).1 = .error e) ∧
     (upload_image exampleUploadEnv ⟨[], "AQID".data, none⟩ emptyWorld).2.1 = emptyWorld) :=
  ⟨rfl, upload_atomic_before_save exampleUploadEnv ⟨[], "AQID".data, none⟩ emptyWorld
    (Or.inl rfl)⟩

/-- C3: when an upload run has saved the bytes (validation and tagging
succeeded, the file write succeeded) and the database insert then fails, the
pipeline issues a best-effort delete of the saved file (when the delete
succeeds the path is gone; a delete failure is swallowed), propagates the
store's failure, and leaves no photo row. -/
theorem upload_compensation_spec
    (env : UploadEnv) (req : UploadRequest) (w : World)
    (name : RStr) (bytes : List Nat) (mime : RStr) (tags : List RStr)
    (h1 : rustTrim req.file_name ≠ [])
    (h2 : rustTrim req.image_base64 ≠ [])
    (hsan : sanitize_file_name req.file_name = .ok name)
    (hdec : decode_image req.image_base64 = .ok bytes)
    (hmime : resolve_mime req.mime_type name = some mime)
    (htag : tag_image env (encodeB64 bytes) mime = .ok tags)
    (htags : tags ≠ [])
    (hsave : env.saveOk = true)
    (hins : env.insertOk = false) :
    upload_image env req w =
      (.error internalServerError,
       ⟨(if env.removeOk then
           remove_image (write_file w.files (imagesDir ++ '/' :: name) bytes)
             (imagesDir ++ '/' :: name)
         else write_file w.files (imagesDir ++ '/' :: name) bytes),
        w.rows⟩,
       [(encodeB64 bytes, mime)]) ∧
    (upload_image env req w).2.1.rows = w.rows ∧
    (env.removeOk = true →
      ∀ f ∈ (upload_image env req w).2.1.files, f.1 ≠ imagesDir ++ '/' :: name) := by
  have hmain : upload_image env req w =
      (.error internalServerError,
       ⟨(if env.removeOk then
           remove_image (write_file w.files (imagesDir ++ '/' :: name) bytes)
             (imagesDir ++ '/' :: name)
         else write_file w.files (imagesDir ++ '/' :: name) bytes),
        w.rows⟩,
       [(encodeB64 bytes, mime)]) := by
    simp only [upload_image, upload_tagged, hsan, hdec, hmime, htag, hsave, hins,
      if_neg h1, if_neg h2, if_neg htags]
    simp
  refine ⟨hmain, ?_, ?_⟩
  · rw [hmain]
  · intro hrem f hf
    rw [hmain] at hf
    rw [hrem] at hf
    simp only [if_true, reduceIte] at hf
    unfold remove_image at hf
    have hpath : imagesDir ++ '/' :: name ≠ [] := by
      simp [imagesDir]
    rw [if_neg hpath] at hf
    simpa using (List.mem_filter.mp hf).2

/-- Witness for `upload_compensation_spec`: a healthy upload of `cat.png`
whose insert fails leaves no row behind. -/
theorem upload_compensation_spec_witness :
    rustTrim "cat.png".data ≠ [] ∧
    (upload_image exampleUploadEnvNoInsert ⟨"cat.png".data, "AQID".data, none⟩
        emptyWorld).2.1.rows = emptyWorld.rows :=
  ⟨by decide,
    (upload_compensation_spec exampleUploadEnvNoInsert
      ⟨"cat.png".data, "AQID".data, none⟩ emptyWorld
      "cat.png".data [1, 2, 3] "image/png".data ["cat".data, "dog".data]
      (by decide) (by decide) (by decide) (by decide) (by decide) (by decide)
      (by decide) rfl rfl).2.1⟩

/-- C10: the upload pipeline depends on `image_base64` only through its
decoded bytes (carriage returns and line feeds are stripped before base64
decoding, and tagging receives the canonical re-encoding of the decoded
bytes): two upload requests that agree on file name and mime type and whose
payloads decode to the same byte sequence produce identical pipeline
outcomes — the same result, the same external state, and the same tagging
calls — and every tagging call carries the canonical base64 payload
`encodeB64 bytes`. -/
theorem upload_depends_only_on_decoded_bytes
    (env : UploadEnv) (w : World) (r1 r2 : UploadRequest) (bytes : List Nat)
    (hfn : r1.file_name = r2.file_name)
    (hmt : r1.mime_type = r2.mime_type)
    (h1 : decode_image r1.image_base64 = .ok bytes)
    (h2 : decode_image r2.image_base64 = .ok bytes) :
    upload_image env r1 w = upload_image env r2 w ∧
    (∀ call ∈ (upload_image env r1 w).2.2, call.1 = encodeB64 bytes) := by
  have htrim : rustTrim r1.image_base64 = [] ↔ rustTrim r2.image_base64 = [] := by
    rw [decode_image_trim h1, decode_image_trim h2]
  have hmain : upload_image env r1 w = upload_image env r2 w := by
    unfold upload_image
    rw [hfn, hmt]
    by_cases hfile : rustTrim r2.file_name = []
    · simp only [if_pos hfile]
    · simp only [if_neg hfile]
      by_cases hb : rustTrim r2.image_base64 = []
      · have hb1 := htrim.mpr hb
        simp only [if_pos hb, if_pos hb1]
      · have hb1 : ¬rustTrim r1.image_base64 = [] := fun hh => hb (htrim.mp hh)
        simp only [if_neg hb, if_neg hb1]
        rw [h1, h2]
  refine ⟨hmain, ?_⟩
  simp only [upload_image, upload_tagged]
  split
  · simp
  split
  · simp
  split
  · simp
  split
  · simp
  next bytes' hdec' =>
  rw [h1] at hdec'
  injection hdec' with hdec'
  subst hdec'
  split
  · simp
  split
  · simp
  split
  · simp
  split
  · simp
  split <;> simp

/-- Witness for `upload_depends_only_on_decoded_bytes`: payloads `"AQID"`
and `"AQID\n"` decode to the same three bytes and drive the pipeline to the
same outcome. -/
theorem upload_depends_only_on_decoded_bytes_witness :
    decode_image "AQID".data = .ok [1, 2, 3] ∧
    decode_image "AQID\n".data = .ok [1, 2, 3] ∧
    upload_image exampleUploadEnv ⟨"cat.png".data, "AQID".data, none⟩ emptyWorld =
      upload_image exampleUploadEnv ⟨"cat.png".data, "AQID\n".data, none⟩ emptyWorld :=
  ⟨by decide, by decide,
    (upload_depends_only_on_decoded_bytes exampleUploadEnv emptyWorld
      ⟨"cat.png".data, "AQID".data, none⟩ ⟨"cat.png".data, "AQID\n".data, none⟩
      [1, 2, 3] rfl rfl (by decide) (by decide)).1⟩

/-- C4: when the embedding call yields at least one vector and the vector
search over the store returns a non-empty result, `semantic_search` answers
immediately with exactly that result: the `tags` field is `none` and the
photos are the first components of the vector-search pairs, which are
ordered ascending by distance. -/
theorem semantic_search_vector_path_spec
    (env : SearchEnv) (req : VectorSearchRequest) (first : List ℚ)
    (rest : List (List ℚ))
    (hq : rustTrim req.query ≠ [])
    (hemb : env.embed = .ok (first :: rest))
    (hstore : env.vectorStoreOk = true)
    (hne : search_by_embedding (env.photos.map (fun p => (p, env.dist first p)))
        (clamp_limit req.limit).toNat req.max_distance ≠ []) :
    semantic_search env req =
      .ok ⟨req.query,
        (search_by_embedding (env.photos.map (fun p => (p, env.dist first p)))
          (clamp_limit req.limit).toNat req.max_distance).map Prod.fst, none⟩ ∧
    List.Sorted distLe
      (search_by_embedding (env.photos.map (fun p => (p, env.dist first p)))
        (clamp_limit req.limit).toNat req.max_distance) := by
  refine ⟨?_, search_by_embedding_sorted _ _ _⟩
  simp only [semantic_search, hemb, if_neg hq, hstore, List.head?_cons, if_neg hne,
    if_true, reduceIte]

/-- Witness for `semantic_search_vector_path_spec` on a one-photo table. -/
theorem semantic_search_vector_path_spec_witness :
    rustTrim "cat".data ≠ [] ∧
    semantic_search exampleSearchEnv ⟨"cat".data, none, none⟩ =
      .ok ⟨"cat".data,
        (search_by_embedding (exampleSearchEnv.photos.map
            (fun p => (p, exampleSearchEnv.dist [1] p)))
          (clamp_limit none).toNat none).map Prod.fst, none⟩ :=
  ⟨by decide,
    (semantic_search_vector_path_spec exampleSearchEnv ⟨"cat".data, none, none⟩
      [1] [] (by decide) rfl rfl (by decide)).1⟩

/-- C5: every semantic-search run that reaches the tag fallback (because the
embedding step produced no vector, or the vector search came back empty)
delegates to `semantic_fallback`; there, a successful fallback tagging call
makes its tag list the response's `tags` field — an empty tag list yields an
empty photo list without querying the store (the result is the same even
when the tag store would fail) — while a failed or timed-out fallback
tagging call leaves `tags` absent and the photo list empty. -/
theorem semantic_search_fallback_spec
    (env : SearchEnv) (req : VectorSearchRequest)
    (hq : rustTrim req.query ≠ []) :
    ((env.embed = .failed ∨ env.embed = .timedOut ∨ env.embed = .ok []) →
      semantic_search env req = semantic_fallback env req.query) ∧
    (∀ first rest, env.embed = .ok (first :: rest) → env.vectorStoreOk = true →
      search_by_embedding (env.photos.map (fun p => (p, env.dist first p)))
        (clamp_limit req.limit).toNat req.max_distance = [] →
      semantic_search env req = semantic_fallback env req.query) ∧
    (env.queryTags = .ok [] →
      semantic_fallback env req.query = .ok ⟨req.query, [], some []⟩) ∧
    (∀ ts, ts ≠ [] → env.queryTags = .ok ts → env.tagStoreOk = true →
      semantic_fallback env req.query =
        .ok ⟨req.query, search_by_tags env.photos ts, some ts⟩) ∧
    ((env.queryTags = .failed ∨ env.queryTags = .timedOut) →
      semantic_fallback env req.query = .ok ⟨req.query, [], none⟩) := by
  refine ⟨?_, ?_, ?_, ?_, ?_⟩
  · rintro (h | h | h) <;>
      simp only [semantic_search, h, if_neg hq, List.head?_nil]
  · intro first rest hemb hstore hempty
    simp only [semantic_search, hemb, if_neg hq, hstore, List.head?_cons, hempty,
      if_true, reduceIte]
  · intro h
    simp only [semantic_fallback, h, reduceIte]
  · intro ts hne h hstore
    simp only [semantic_fallback, h, if_neg hne, hstore, if_true, reduceIte]
  · rintro (h | h) <;> simp only [semantic_fallback, h]

/-- Witness for `semantic_search_fallback_spec`: with a failed embedding
call and a fallback tagging call returning `[]`, the response carries
`tags = []` and no photos even though the tag store would fail. -/
theorem semantic_search_fallback_spec_witness :
    rustTrim "cat".data ≠ [] ∧
    semantic_fallback exampleSearchEnvFallback "cat".data =
      .ok ⟨"cat".data, [], some []⟩ :=
  ⟨by decide,
    (semantic_search_fallback_spec exampleSearchEnvFallback ⟨"cat".data, none, none⟩
      (by decide)).2.2.1 rfl⟩

/-- C6: `Photo::search_by_tags` with an empty tag list has list-all
semantics — every photo, ordered newest first — and the `GET /api/images`
handler returns that list when its tag parameter parses to no tags, while
the same empty tag list inside the semantic-search fallback produces no
photos. -/
theorem empty_tag_filter_asymmetry
    (table : List Photo) (env : SearchEnv) (q : RStr) (tagsParam : RStr) :
    search_by_tags table [] = list_all table ∧
    List.Sorted newestFirst (search_by_tags table []) ∧
    (parse_tags tagsParam = [] → list_images table (some tagsParam) = list_all table) ∧
    (env.queryTags = .ok [] → semantic_fallback env q = .ok ⟨q, [], some []⟩) := by
  refine ⟨rfl, ?_, ?_, ?_⟩
  · exact List.sorted_insertionSort newestFirst table
  · intro hp
    simp only [list_images, hp, reduceIte]
  · intro h
    simp only [semantic_fallback, h, reduceIte]

/-- Witness for `empty_tag_filter_asymmetry`: the parameter `" , "` parses
to no tags and lists everything, while the fallback with `[]` returns no
photos. -/
theorem empty_tag_filter_asymmetry_witness :
    parse_tags " , ".data = [] ∧
    list_images [examplePhoto 1] (some " , ".data) = list_all [examplePhoto 1] ∧
    semantic_fallback exampleSearchEnvFallback "dog".data =
      .ok ⟨"dog".data, [], some []⟩ :=
  ⟨by decide,
    (empty_tag_filter_asymmetry [examplePhoto 1] exampleSearchEnvFallback
      "dog".data " , ".data).2.2.1 (by decide),
    (empty_tag_filter_asymmetry [examplePhoto 1] exampleSearchEnvFallback
      "dog".data " , ".data).2.2.2 rfl⟩
